import Mathlib

/-!
Verification of the mistral process lifecycle orchestrator
(`cmd/mistral/main.go`).

The program is embedded shallowly as a function from its inputs
(command-line flags, configuration, the stream of events arriving at the
main select loop, and the timed stream of straggler errors arriving at the
drain loop) to the ordered list of observable actions it performs
(log lines, `ProcessState` transitions, channel closes, sleeps, the HTTP
server shutdown, and the final process exit).

Channels are modelled by identity (which channel), since the claims are
about which channel is closed or sent on and in what order, not about
channel contents.  The select statement's nondeterminism is modelled by
quantifying over the order in which events are observed.
-/

namespace Mistral

/-- The channels of `main.go`, by identity.  `death` is the shared
`handlerDeath` error channel; `msErrors` and `msShutdown` are the metric
socket producer's `Errors` and `Shutdown` channels; `sigChan` is the OS
signal channel `c`; each handler `i` owns `handlerInput i` (its `Input`
queue) and `handlerShutdown i` (its private `Shutdown` channel). -/
inductive Chan where
  | death
  | msErrors
  | msShutdown
  | sigChan
  | handlerInput (i : Nat)
  | handlerShutdown (i : Nat)
deriving DecidableEq, Repr

/-- Observable actions of `main`, in program order.  `exitCode 0` at the
end of a run models `main` returning normally (the Go process then exits
with status 0); `exitCode 1` models `os.Exit(1)`.  `fatalConfig` and
`fatalLogfile` model the two `logrus.Fatalf` calls, which terminate the
process before any component is started. -/
inductive Action where
  | printVersion
  | exitCode (code : Nat)
  | fatalConfig
  | fatalLogfile
  | openLogfile
  | launchLogrotate
  | launchMetricsProducer
  | createHandler (i cap : Nat)
  | startHandler (i : Nat)
  | startHTTPServer
  | logSocketError (m : String)
  | logShutdownSignal
  | logHandlerDeath (m : String)
  | setShutdown
  | setUnavailable
  | sleepMs (ms : Nat)
  | closeChan (c : Chan)
  | drainLogSocket (m : String)
  | drainLogHandler (m : String)
  | httpShutdown
deriving DecidableEq, Repr

/-- An arrival observed by the main select loop (lines 157-178): an error
on the socket producer's `Errors` channel, an OS termination signal on
`c`, or an error on the shared `handlerDeath` channel. -/
inductive RunEvent where
  | socketError (m : String)
  | osSignal
  | handlerDeath (m : String)
deriving DecidableEq, Repr

/-- Which shutdown path the orchestrator committed to: `graceful` when
the operator signal was observed (`shutdown = true`), `fault` when a
`handlerDeath` arrival was observed (`fault = true`). -/
inductive Commit where
  | graceful
  | fault
deriving DecidableEq, Repr

/-- A straggler arrival during the drain loop (lines 194-204): an error
on `ms.Errors` or on `handlerDeath`. -/
inductive DrainEv where
  | socketErr (m : String)
  | handlerErr (m : String)
deriving DecidableEq, Repr

/-- The grace interval of line 183: `time.Second * 95`, in milliseconds. -/
def gracePeriodMs : Nat := 95 * 1000

/-- The drain loop timeout of line 201: `time.Millisecond * 10`. -/
def drainTimeoutMs : Nat := 10

/-- The main select loop (`runloop`, lines 157-178): socket errors are
logged and the loop continues; an OS signal logs, calls
`mistral.SetShutdown()`, sets `shutdown = true` and breaks; a
`handlerDeath` arrival logs, calls `mistral.SetUnavailable()`, sets
`fault = true` and breaks.  Returns the actions performed and the path
committed to (`none` when the event list is exhausted without a commit,
i.e. the loop is still blocked waiting). -/
def runloop : List RunEvent → List Action × Option Commit
  | [] => ([], none)
  | .socketError m :: rest =>
      let r := runloop rest
      (.logSocketError m :: r.1, r.2)
  | .osSignal :: _ =>
      ([.logShutdownSignal, .setShutdown], some .graceful)
  | .handlerDeath m :: _ =>
      ([.logHandlerDeath m, .setUnavailable], some .fault)

/-- One drain-loop straggler with the time in milliseconds since the
iteration began (i.e. since the previous arrival was consumed, because
`time.After` is a fresh timer in each `select` evaluation). -/
abbrev DrainArrival := Nat × DrainEv

/-- The logging performed for one straggler (lines 197-200). -/
def drainLogOf : DrainEv → Action
  | .socketErr m => .drainLogSocket m
  | .handlerErr m => .drainLogHandler m

/-- The drain loop (`drainloop`, lines 194-204).  Each iteration arms a
fresh `time.After(10ms)` timer; an arrival strictly before the timer
fires is logged and the loop repeats, while a 10 ms quiescent window
breaks the loop.  Returns the log actions and the total elapsed time in
milliseconds (each consumed arrival contributes its gap; the final
iteration contributes the full timeout). -/
def drainloop : List DrainArrival → List Action × Nat
  | [] => ([], drainTimeoutMs)
  | (gap, ev) :: rest =>
      if gap < drainTimeoutMs then
        let r := drainloop rest
        (drainLogOf ev :: r.1, gap + r.2)
      else
        ([], drainTimeoutMs)

/-- The teardown closes of lines 186-191: `close(ms.Shutdown)`, then for
every handler its private shutdown channel is closed and then its input
queue is closed.

Modelled from the spec: the `mistral.Handlers` collection is declared in
`internal/mistral`, which is not part of the visible source; the spec
states the handlers carry ordinal indices `0..N-1` and are closed "in
index order", so the iteration of line 188 is modelled as ascending
index order over `0..n-1`. -/
def closeSequence (n : Nat) : List Action :=
  Action.closeChan .msShutdown ::
    (List.range n).flatMap (fun i =>
      [Action.closeChan (.handlerShutdown i),
       Action.closeChan (.handlerInput i)])

/-- Everything `main` does after the select loop commits a path
(lines 180-221): the 95 s grace sleep on the graceful path only, the
teardown closes, the straggler drain loop, the 10 ms goroutine-exit
sleep, the bounded HTTP server shutdown, and the process exit
(`os.Exit(1)` when `fault`, otherwise `main` returns and the process
exits 0). -/
def afterCommit (c : Commit) (n : Nat) (d : List DrainArrival) : List Action :=
  (if c = .graceful then [Action.sleepMs gracePeriodMs] else [])
    ++ closeSequence n
    ++ (drainloop d).1
    ++ [Action.sleepMs drainTimeoutMs, Action.httpShutdown,
        Action.exitCode (if c = .fault then 1 else 0)]

/-- The configuration fields of `erebos.Config` read by `main`. -/
structure Config where
  logRotate : Bool
  produceMetrics : Bool
  handlerQueueLength : Nat
deriving DecidableEq, Repr

/-- The handler unit of lines 116-124: a `mistral.Mistral` value with its
ordinal `Num`, its own `Input` queue of capacity
`HandlerQueueLength`, its own private `Shutdown` channel, and the shared
`handlerDeath` channel as `Death`. -/
structure Handler where
  Num : Nat
  Input : Chan
  InputCap : Nat
  Shutdown : Chan
  Death : Chan
deriving DecidableEq, Repr

/-- The handler pool built by the loop of lines 115-128: one handler per
available processing core `i = 0..numCPU-1`. -/
def mkHandlers (numCPU qlen : Nat) : List Handler :=
  (List.range numCPU).map (fun i =>
    { Num := i
      Input := .handlerInput i
      InputCap := qlen
      Shutdown := .handlerShutdown i
      Death := .death })

/-- The startup actions after configuration and logfile succeed
(lines 77-152): open the logfile, optionally launch the logrotate
listener and the metrics producer, create and start each handler once,
and start the HTTP server goroutine. -/
def startupTrace (conf : Config) (numCPU : Nat) : List Action :=
  Action.openLogfile ::
    ((if conf.logRotate then [Action.launchLogrotate] else [])
      ++ (if conf.produceMetrics then [Action.launchMetricsProducer] else [])
      ++ (List.range numCPU).flatMap (fun i =>
            [Action.createHandler i conf.handlerQueueLength,
             Action.startHandler i])
      ++ [Action.startHTTPServer])

/-- The HTTP server goroutine of lines 148-152: if
`srv.ListenAndServe()` returns an error, that error is sent once onto
the shared `handlerDeath` channel; otherwise nothing is sent.  The
result is the list of (channel, error) sends it performs. -/
def httpServerGoroutine (listenErr : Option String) : List (Chan × String) :=
  match listenErr with
  | some e => [(.death, e)]
  | none => []

/-- The whole of `main` as a trace of actions, parameterised by the
`--version` flag, whether configuration load and logfile open succeed,
the configuration, the number of available cores, the events observed by
the select loop and the timed stragglers observed by the drain loop. -/
def mainProgram (versionFlag configOk logfileOk : Bool) (conf : Config)
    (numCPU : Nat) (events : List RunEvent) (d : List DrainArrival) :
    List Action :=
  if versionFlag then [Action.printVersion, Action.exitCode 0]
  else if !configOk then [Action.fatalConfig]
  else if !logfileOk then [Action.fatalLogfile]
  else
    startupTrace conf numCPU ++
      (let r := runloop events
       match r.2 with
       | none => r.1
       | some c => r.1 ++ afterCommit c numCPU d)

/-- Classifier: process-exit actions. -/
def isExit : Action → Bool
  | .exitCode _ => true
  | _ => false

/-- Classifier: `ProcessState` transitions (`mistral.SetShutdown()` and
`mistral.SetUnavailable()`). -/
def isStateSet : Action → Bool
  | .setShutdown => true
  | .setUnavailable => true
  | _ => false

/-- Classifier: teardown signals (channel closes). -/
def isClose : Action → Bool
  | .closeChan _ => true
  | _ => false

/-- Classifier: drain-loop straggler log lines. -/
def isDrainLog : Action → Bool
  | .drainLogSocket _ => true
  | .drainLogHandler _ => true
  | _ => false

/-- The `ProcessState` transition performed when committing a path:
`SetShutdown` on the graceful path, `SetUnavailable` on the fault path. -/
def commitStateSet : Commit → Action
  | .graceful => .setShutdown
  | .fault => .setUnavailable

/-- The exit status of a committed path: 0 for graceful, 1 for fault. -/
def commitExitCode : Commit → Nat
  | .graceful => 0
  | .fault => 1

/-- The close order as the spec words it: "close the Socket Producer's
shutdown signal; for every Handler in index order, close its private
shutdown signal then close its input queue". -/
def specCloseOrder (n : Nat) : List Action :=
  Action.closeChan .msShutdown ::
    (List.range n).flatMap (fun i =>
      [Action.closeChan (.handlerShutdown i),
       Action.closeChan (.handlerInput i)])

/-- Total time of a straggler arrival list while every gap is consumed. -/
def sumGaps (d : List DrainArrival) : Nat :=
  (d.map (fun p => p.1)).sum

/-- The log action the select loop performs for an arrival. -/
def runLogOf : RunEvent → Action
  | .socketError m => .logSocketError m
  | .osSignal => .logShutdownSignal
  | .handlerDeath m => .logHandlerDeath m

lemma mem_closeSequence {n : Nat} {a : Action} (h : a ∈ closeSequence n) :
    isClose a = true := by
  simp only [closeSequence, List.mem_cons, List.mem_flatMap, List.mem_range,
    List.not_mem_nil, or_false] at h
  rcases h with h | ⟨i, _, h | h⟩ <;> simp [h, isClose]

lemma mem_drainloop {d : List DrainArrival} {a : Action}
    (h : a ∈ (drainloop d).1) : isDrainLog a = true := by
  induction d with
  | nil => simp [drainloop] at h
  | cons p rest ih =>
      obtain ⟨gap, ev⟩ := p
      by_cases hg : gap < drainTimeoutMs
      · simp only [drainloop, if_pos hg, List.mem_cons] at h
        rcases h with h | h
        · cases ev <;> simp [h, drainLogOf, isDrainLog]
        · exact ih h
      · simp [drainloop, if_neg hg] at h

lemma mem_runloop {events : List RunEvent} {a : Action}
    (h : a ∈ (runloop events).1) :
    (∃ m, a = Action.logSocketError m) ∨ a = Action.logShutdownSignal ∨
    (∃ m, a = Action.logHandlerDeath m) ∨ a = Action.setShutdown ∨
    a = Action.setUnavailable := by
  induction events with
  | nil => simp [runloop] at h
  | cons e rest ih =>
      cases e with
      | socketError m =>
          simp only [runloop, List.mem_cons] at h
          rcases h with h | h
          · exact Or.inl ⟨m, h⟩
          · exact ih h
      | osSignal =>
          simp only [runloop, List.mem_cons, List.not_mem_nil, or_false] at h
          rcases h with h | h
          · exact Or.inr (Or.inl h)
          · exact Or.inr (Or.inr (Or.inr (Or.inl h)))
      | handlerDeath m =>
          simp only [runloop, List.mem_cons, List.not_mem_nil, or_false] at h
          rcases h with h | h
          · exact Or.inr (Or.inr (Or.inl ⟨m, h⟩))
          · exact Or.inr (Or.inr (Or.inr (Or.inr h)))

lemma mem_startupTrace {conf : Config} {n : Nat} {a : Action}
    (h : a ∈ startupTrace conf n) :
    a = Action.openLogfile ∨ a = Action.launchLogrotate ∨
    a = Action.launchMetricsProducer ∨
    (∃ i, a = Action.createHandler i conf.handlerQueueLength) ∨
    (∃ i, a = Action.startHandler i) ∨ a = Action.startHTTPServer := by
  simp only [startupTrace, List.mem_cons, List.mem_append, List.mem_flatMap,
    List.mem_range, List.not_mem_nil, or_false, List.mem_ite_nil_right] at h
  rcases h with h | ((⟨_, h⟩ | ⟨_, h⟩) | ⟨i, _, h | h⟩) | h
  · exact Or.inl h
  · exact Or.inr (Or.inl h)
  · exact Or.inr (Or.inr (Or.inl h))
  · exact Or.inr (Or.inr (Or.inr (Or.inl ⟨i, h⟩)))
  · exact Or.inr (Or.inr (Or.inr (Or.inr (Or.inl ⟨i, h⟩))))
  · exact Or.inr (Or.inr (Or.inr (Or.inr (Or.inr h))))

lemma startup_filter_nil (conf : Config) (n : Nat) (p : Action → Bool)
    (hp1 : p .openLogfile = false) (hp2 : p .launchLogrotate = false)
    (hp3 : p .launchMetricsProducer = false)
    (hp4 : ∀ i c, p (.createHandler i c) = false)
    (hp5 : ∀ i, p (.startHandler i) = false)
    (hp6 : p .startHTTPServer = false) :
    (startupTrace conf n).filter p = [] := by
  refine List.filter_eq_nil_iff.mpr (fun a ha => ?_)
  rcases mem_startupTrace ha with h | h | h | ⟨i, h⟩ | ⟨i, h⟩ | h <;>
    simp [h, hp1, hp2, hp3, hp4, hp5, hp6]

lemma runloop_filter_nil (events : List RunEvent) (p : Action → Bool)
    (hp1 : ∀ m, p (.logSocketError m) = false)
    (hp2 : p .logShutdownSignal = false)
    (hp3 : ∀ m, p (.logHandlerDeath m) = false)
    (hp4 : p .setShutdown = false) (hp5 : p .setUnavailable = false) :
    ((runloop events).1).filter p = [] := by
  refine List.filter_eq_nil_iff.mpr (fun a ha => ?_)
  rcases mem_runloop ha with ⟨m, h⟩ | h | ⟨m, h⟩ | h | h <;>
    simp [h, hp1, hp2, hp3, hp4, hp5]

lemma drainloop_filter_nil (d : List DrainArrival) (p : Action → Bool)
    (hp1 : ∀ m, p (.drainLogSocket m) = false)
    (hp2 : ∀ m, p (.drainLogHandler m) = false) :
    ((drainloop d).1).filter p = [] := by
  refine List.filter_eq_nil_iff.mpr (fun a ha => ?_)
  have := mem_drainloop ha
  cases a <;> simp_all [isDrainLog, hp1, hp2]

lemma closeSequence_filter_nil (n : Nat) (p : Action → Bool)
    (hp : ∀ c, p (.closeChan c) = false) :
    (closeSequence n).filter p = [] := by
  refine List.filter_eq_nil_iff.mpr (fun a ha => ?_)
  have := mem_closeSequence ha
  cases a <;> simp_all [isClose, hp]

lemma closeSequence_filter_isClose (n : Nat) :
    (closeSequence n).filter isClose = closeSequence n :=
  List.filter_eq_self.mpr (fun _ ha => mem_closeSequence ha)

/-- When the select loop exhausts its events without a commit, all its
actions are socket-error log lines and nothing else. -/
lemma runloop_none {events : List RunEvent}
    (h : ∀ e ∈ events, ∃ m, e = RunEvent.socketError m) :
    runloop events = (events.map runLogOf, none) := by
  induction events with
  | nil => simp [runloop]
  | cons e rest ih =>
      obtain ⟨m, rfl⟩ := h e (List.mem_cons_self e rest)
      have hr := ih (fun x hx => h x (List.mem_cons_of_mem _ hx))
      simp [runloop, hr, runLogOf]

/-- Shape of the select loop's output on a committed run: a prefix of
socket-error log lines, the commit-trigger log line, then the
`ProcessState` transition as the very last action. -/
lemma runloop_shape {events : List RunEvent} {c : Commit}
    (h : (runloop events).2 = some c) :
    ∃ pre lastLog, (runloop events).1 = pre ++ [lastLog, commitStateSet c] ∧
      (∀ a ∈ pre, ∃ m, a = Action.logSocketError m) ∧
      isClose lastLog = false ∧ isStateSet lastLog = false ∧
      isExit lastLog = false ∧ isDrainLog lastLog = false ∧
      (∀ ms, lastLog ≠ Action.sleepMs ms) ∧
      (c = .graceful → lastLog = Action.logShutdownSignal) ∧
      (c = .fault → ∃ m, lastLog = Action.logHandlerDeath m) := by
  induction events with
  | nil => simp [runloop] at h
  | cons e rest ih =>
      cases e with
      | socketError m =>
          have h' : (runloop rest).2 = some c := by simpa [runloop] using h
          obtain ⟨pre, lastLog, h1, h2, h3⟩ := ih h'
          refine ⟨.logSocketError m :: pre, lastLog, ?_, ?_, h3⟩
          · simp [runloop, h1]
          · intro a ha
            rcases List.mem_cons.mp ha with ha | ha
            exacts [⟨m, ha⟩, h2 a ha]
      | osSignal =>
          have hc : c = .graceful := by simpa [runloop] using h.symm
          subst hc
          exact ⟨[], .logShutdownSignal, by simp [runloop, commitStateSet],
            by simp, by simp [isClose], by simp [isStateSet],
            by simp [isExit], by simp [isDrainLog], by simp, fun _ => rfl,
            by simp⟩
      | handlerDeath m =>
          have hc : c = .fault := by simpa [runloop] using h.symm
          subst hc
          exact ⟨[], .logHandlerDeath m, by simp [runloop, commitStateSet],
            by simp, by simp [isClose], by simp [isStateSet],
            by simp [isExit], by simp [isDrainLog], by simp, by simp,
            fun _ => ⟨m, rfl⟩⟩

/-- A committed run of `main` is the startup trace, the select-loop
trace, then the post-commit teardown. -/
lemma mainProgram_commit {conf : Config} {n : Nat} {events : List RunEvent}
    {d : List DrainArrival} {c : Commit} (h : (runloop events).2 = some c) :
    mainProgram false true true conf n events d =
      startupTrace conf n ++ ((runloop events).1 ++ afterCommit c n d) := by
  simp [mainProgram, h]

/-- An uncommitted run of `main` is the startup trace then the select
loop's log lines; the loop is still blocked. -/
lemma mainProgram_noCommit {conf : Config} {n : Nat} {events : List RunEvent}
    {d : List DrainArrival} (h : (runloop events).2 = none) :
    mainProgram false true true conf n events d =
      startupTrace conf n ++ (runloop events).1 := by
  simp [mainProgram, h]

lemma afterCommit_filter_isExit (c : Commit) (n : Nat) (d : List DrainArrival) :
    (afterCommit c n d).filter isExit = [Action.exitCode (commitExitCode c)] := by
  cases c <;>
    simp [afterCommit, List.filter_append,
      closeSequence_filter_nil _ isExit (fun _ => rfl),
      drainloop_filter_nil d isExit (fun _ => rfl) (fun _ => rfl),
      isExit, commitExitCode]

lemma afterCommit_filter_isStateSet (c : Commit) (n : Nat)
    (d : List DrainArrival) :
    (afterCommit c n d).filter isStateSet = [] := by
  cases c <;>
    simp [afterCommit, List.filter_append,
      closeSequence_filter_nil _ isStateSet (fun _ => rfl),
      drainloop_filter_nil d isStateSet (fun _ => rfl) (fun _ => rfl),
      isStateSet]

lemma afterCommit_filter_isClose (c : Commit) (n : Nat)
    (d : List DrainArrival) :
    (afterCommit c n d).filter isClose = closeSequence n := by
  cases c <;>
    simp [afterCommit, List.filter_append, closeSequence_filter_isClose,
      drainloop_filter_nil d isClose (fun _ => rfl) (fun _ => rfl),
      isClose]

lemma isClose_false_of_mem_startup {conf : Config} {n : Nat} {a : Action}
    (h : a ∈ startupTrace conf n) : isClose a = false := by
  rcases mem_startupTrace h with h | h | h | ⟨i, h⟩ | ⟨i, h⟩ | h <;>
    simp [h, isClose]

lemma isClose_false_of_mem_runloop {events : List RunEvent} {a : Action}
    (h : a ∈ (runloop events).1) : isClose a = false := by
  rcases mem_runloop h with ⟨m, h⟩ | h | ⟨m, h⟩ | h | h <;> simp [h, isClose]

lemma isDrainLog_false_of_mem_startup {conf : Config} {n : Nat} {a : Action}
    (h : a ∈ startupTrace conf n) : isDrainLog a = false := by
  rcases mem_startupTrace h with h | h | h | ⟨i, h⟩ | ⟨i, h⟩ | h <;>
    simp [h, isDrainLog]

lemma isDrainLog_false_of_mem_runloop {events : List RunEvent} {a : Action}
    (h : a ∈ (runloop events).1) : isDrainLog a = false := by
  rcases mem_runloop h with ⟨m, h⟩ | h | ⟨m, h⟩ | h | h <;>
    simp [h, isDrainLog]

lemma sleep_not_mem_startup (conf : Config) (n ms : Nat) :
    Action.sleepMs ms ∉ startupTrace conf n := by
  intro h
  rcases mem_startupTrace h with h | h | h | ⟨i, h⟩ | ⟨i, h⟩ | h <;>
    exact absurd h (by simp)

lemma sleep_not_mem_runloop (events : List RunEvent) (ms : Nat) :
    Action.sleepMs ms ∉ (runloop events).1 := by
  intro h
  rcases mem_runloop h with ⟨m, h⟩ | h | ⟨m, h⟩ | h | h <;>
    exact absurd h (by simp)

lemma sleep_not_mem_closeSequence (n ms : Nat) :
    Action.sleepMs ms ∉ closeSequence n := by
  intro h
  simpa [isClose] using mem_closeSequence h

lemma sleep_not_mem_drainloop (d : List DrainArrival) (ms : Nat) :
    Action.sleepMs ms ∉ (drainloop d).1 := by
  intro h
  simpa [isDrainLog] using mem_drainloop h

lemma closes_mem_closeSequence {n i : Nat} (h : i < n) :
    Action.closeChan (.handlerShutdown i) ∈ closeSequence n ∧
    Action.closeChan (.handlerInput i) ∈ closeSequence n := by
  constructor <;>
    · simp only [closeSequence, List.mem_cons, List.mem_flatMap, List.mem_range]
      exact Or.inr ⟨i, h, by simp⟩

lemma count_grace_afterCommit (c : Commit) (n : Nat) (d : List DrainArrival) :
    (afterCommit c n d).count (Action.sleepMs gracePeriodMs)
      = if c = .graceful then 1 else 0 := by
  have h1 := List.count_eq_zero.mpr (sleep_not_mem_closeSequence n gracePeriodMs)
  have h2 := List.count_eq_zero.mpr (sleep_not_mem_drainloop d gracePeriodMs)
  simp only [gracePeriodMs] at h1 h2
  cases c <;>
    simp [afterCommit, List.count_append, h1, h2, List.count_cons,
      gracePeriodMs, drainTimeoutMs]

/-- C1: every run that reaches Terminated exits with status 0 when the
committed shutdown path was GracefulShutdown and with status 1 when it
was FaultShutdown, and no other exit status occurs in the trace. -/
theorem exit_status_matches_committed_path
    (conf : Config) (numCPU : Nat) (events : List RunEvent)
    (d : List DrainArrival) (c : Commit) (h : (runloop events).2 = some c) :
    (mainProgram false true true conf numCPU events d).filter isExit
      = [Action.exitCode (commitExitCode c)] ∧
    commitExitCode .graceful = 0 ∧ commitExitCode .fault = 1 := by
  refine ⟨?_, rfl, rfl⟩
  rw [mainProgram_commit h]
  simp [List.filter_append,
    startup_filter_nil conf numCPU isExit rfl rfl rfl (fun _ _ => rfl)
      (fun _ => rfl) rfl,
    runloop_filter_nil events isExit (fun _ => rfl) rfl (fun _ => rfl) rfl rfl,
    afterCommit_filter_isExit]

/-- Witness for C1 at the concrete run committing the graceful path. -/
theorem exit_status_matches_committed_path_witness :
    (mainProgram false true true ⟨false, false, 0⟩ 1 [RunEvent.osSignal]
        []).filter isExit = [Action.exitCode (commitExitCode .graceful)] ∧
    commitExitCode .graceful = 0 ∧ commitExitCode .fault = 1 :=
  exit_status_matches_committed_path ⟨false, false, 0⟩ 1 [RunEvent.osSignal]
    [] .graceful rfl

/-- C2: the 95-second grace sleep occurs exactly once after committing
GracefulShutdown and never after committing FaultShutdown; on the
graceful path it precedes every teardown close, and on the fault path
the teardown closes immediately follow the `SetUnavailable` transition. -/
theorem grace_interval_graceful_only
    (conf : Config) (numCPU : Nat) (events : List RunEvent)
    (d : List DrainArrival) (c : Commit) (h : (runloop events).2 = some c) :
    ((mainProgram false true true conf numCPU events d).count
        (Action.sleepMs gracePeriodMs) = if c = .graceful then 1 else 0) ∧
    (c = .graceful → ∃ p s,
      mainProgram false true true conf numCPU events d
        = p ++ Action.sleepMs gracePeriodMs :: (closeSequence numCPU ++ s) ∧
      ∀ a ∈ p, isClose a = false) ∧
    (c = .fault → ∃ p s,
      mainProgram false true true conf numCPU events d
        = p ++ Action.setUnavailable :: (closeSequence numCPU ++ s)) := by
  refine ⟨?_, ?_, ?_⟩
  · rw [mainProgram_commit h]
    simp [List.count_append,
      List.count_eq_zero.mpr (sleep_not_mem_startup conf numCPU gracePeriodMs),
      List.count_eq_zero.mpr (sleep_not_mem_runloop events gracePeriodMs),
      count_grace_afterCommit]
  · intro hc; subst hc
    refine ⟨startupTrace conf numCPU ++ (runloop events).1,
      (drainloop d).1 ++ [Action.sleepMs drainTimeoutMs, Action.httpShutdown,
        Action.exitCode (commitExitCode .graceful)], ?_, ?_⟩
    · rw [mainProgram_commit h]
      simp [afterCommit, commitExitCode, List.append_assoc]
    · intro a ha
      rcases List.mem_append.mp ha with ha | ha
      exacts [isClose_false_of_mem_startup ha, isClose_false_of_mem_runloop ha]
  · intro hc; subst hc
    obtain ⟨pre, lastLog, h1, -, -⟩ := runloop_shape h
    refine ⟨startupTrace conf numCPU ++ pre ++ [lastLog],
      (drainloop d).1 ++ [Action.sleepMs drainTimeoutMs, Action.httpShutdown,
        Action.exitCode (commitExitCode .fault)], ?_⟩
    rw [mainProgram_commit h, h1]
    simp [afterCommit, commitStateSet, commitExitCode, List.append_assoc]

/-- Witness for C2 at concrete graceful and fault runs. -/
theorem grace_interval_graceful_only_witness :
    ((mainProgram false true true ⟨false, false, 0⟩ 1 [RunEvent.osSignal]
        []).count (Action.sleepMs gracePeriodMs) = 1) ∧
    (∃ p s, mainProgram false true true ⟨false, false, 0⟩ 1
        [RunEvent.handlerDeath "dead"] []
        = p ++ Action.setUnavailable :: (closeSequence 1 ++ s)) := by
  constructor
  · exact (grace_interval_graceful_only ⟨false, false, 0⟩ 1 [RunEvent.osSignal]
      [] .graceful rfl).1
  · exact (grace_interval_graceful_only ⟨false, false, 0⟩ 1
      [RunEvent.handlerDeath "dead"] [] .fault rfl).2.2 rfl

/-- C3: on every committed run the `ProcessState` transition
(`SetShutdown` on the graceful path, `SetUnavailable` on the fault path)
occurs before any teardown close, and the socket producer's shutdown
close and every handler's shutdown and input close all occur after it. -/
theorem state_set_before_teardown
    (conf : Config) (numCPU : Nat) (events : List RunEvent)
    (d : List DrainArrival) (c : Commit) (h : (runloop events).2 = some c) :
    ∃ p s, mainProgram false true true conf numCPU events d
        = p ++ commitStateSet c :: s ∧
      (∀ a ∈ p, isClose a = false) ∧
      Action.closeChan .msShutdown ∈ s ∧
      (∀ i, i < numCPU →
        Action.closeChan (.handlerShutdown i) ∈ s ∧
        Action.closeChan (.handlerInput i) ∈ s) := by
  obtain ⟨pre, lastLog, h1, h2, hcl, -⟩ := runloop_shape h
  refine ⟨startupTrace conf numCPU ++ pre ++ [lastLog], afterCommit c numCPU d,
    ?_, ?_, ?_, ?_⟩
  · rw [mainProgram_commit h, h1]
    simp [List.append_assoc]
  · intro a ha
    simp only [List.append_assoc, List.mem_append, List.mem_singleton] at ha
    rcases ha with ha | ha | ha
    · exact isClose_false_of_mem_startup ha
    · obtain ⟨m, rfl⟩ := h2 a ha
      rfl
    · subst ha; exact hcl
  · have : Action.closeChan .msShutdown ∈ closeSequence numCPU := by
      simp [closeSequence]
    cases c <;> simp [afterCommit] <;> simp_all [closeSequence]
  · intro i hi
    obtain ⟨hm1, hm2⟩ := closes_mem_closeSequence hi
    constructor <;>
      · cases c <;> simp only [afterCommit, List.mem_append] <;> tauto
/-- Witness for C3 at a concrete fault run. -/
theorem state_set_before_teardown_witness :
    ∃ p s, mainProgram false true true ⟨false, false, 0⟩ 1
        [RunEvent.handlerDeath "dead"] []
        = p ++ commitStateSet .fault :: s ∧
      (∀ a ∈ p, isClose a = false) ∧
      Action.closeChan .msShutdown ∈ s ∧
      (∀ i, i < 1 →
        Action.closeChan (.handlerShutdown i) ∈ s ∧
        Action.closeChan (.handlerInput i) ∈ s) :=
  state_set_before_teardown ⟨false, false, 0⟩ 1 [RunEvent.handlerDeath "dead"]
    [] .fault rfl

/-- A path is only ever committed by an operator signal (graceful) or a
fault-channel arrival (fault). -/
lemma runloop_commit_source {events : List RunEvent} {c : Commit}
    (h : (runloop events).2 = some c) :
    (c = .graceful → RunEvent.osSignal ∈ events) ∧
    (c = .fault → ∃ m, RunEvent.handlerDeath m ∈ events) := by
  induction events with
  | nil => simp [runloop] at h
  | cons e rest ih =>
      cases e with
      | socketError m =>
          have h' : (runloop rest).2 = some c := by simpa [runloop] using h
          obtain ⟨hg, hf⟩ := ih h'
          exact ⟨fun hc => List.mem_cons_of_mem _ (hg hc),
            fun hc => (hf hc).imp (fun m hm => List.mem_cons_of_mem _ hm)⟩
      | osSignal =>
          have hc : c = .graceful := by simpa [runloop] using h.symm
          subst hc
          exact ⟨fun _ => List.mem_cons_self _ _, by simp⟩
      | handlerDeath m =>
          have hc : c = .fault := by simpa [runloop] using h.symm
          subst hc
          exact ⟨by simp, fun _ => ⟨m, List.mem_cons_self _ _⟩⟩

/-- C4: while the orchestrator is Running, socket-producer errors are only
logged: a run whose arrivals are all socket errors commits no path, its
loop actions are exactly the log lines, and the whole trace contains no
`ProcessState` transition, no teardown close and no exit; a path is only
committed by an operator signal or a fault arrival. -/
theorem socket_errors_logged_only_while_running
    (conf : Config) (numCPU : Nat) (events : List RunEvent)
    (d : List DrainArrival)
    (h : ∀ e ∈ events, ∃ m, e = RunEvent.socketError m) :
    (runloop events).2 = none ∧
    (runloop events).1 = events.map runLogOf ∧
    (mainProgram false true true conf numCPU events d).filter isStateSet
      = [] ∧
    (mainProgram false true true conf numCPU events d).filter isClose = [] ∧
    (mainProgram false true true conf numCPU events d).filter isExit = [] ∧
    (∀ evs (c : Commit), (runloop evs).2 = some c →
      (c = .graceful → RunEvent.osSignal ∈ evs) ∧
      (c = .fault → ∃ m, RunEvent.handlerDeath m ∈ evs)) := by
  have hrl := runloop_none h
  have hnone : (runloop events).2 = none := by rw [hrl]
  have hmap : ∀ p : Action → Bool, (∀ m, p (.logSocketError m) = false) →
      ((runloop events).1).filter p = [] := by
    intro p hp
    refine List.filter_eq_nil_iff.mpr (fun a ha => ?_)
    rw [hrl] at ha
    simp only [List.mem_map] at ha
    obtain ⟨e, he, rfl⟩ := ha
    obtain ⟨m, rfl⟩ := h e he
    simp [runLogOf, hp]
  rw [mainProgram_noCommit hnone]
  refine ⟨hnone, by rw [hrl], ?_, ?_, ?_,
    fun evs c hc => runloop_commit_source hc⟩
  · simp [List.filter_append,
      startup_filter_nil conf numCPU isStateSet rfl rfl rfl (fun _ _ => rfl)
        (fun _ => rfl) rfl,
      hmap isStateSet (fun _ => rfl)]
  · simp [List.filter_append,
      startup_filter_nil conf numCPU isClose rfl rfl rfl (fun _ _ => rfl)
        (fun _ => rfl) rfl,
      hmap isClose (fun _ => rfl)]
  · simp [List.filter_append,
      startup_filter_nil conf numCPU isExit rfl rfl rfl (fun _ _ => rfl)
        (fun _ => rfl) rfl,
      hmap isExit (fun _ => rfl)]

/-- Witness for C4 at a concrete socket-error-only run. -/
theorem socket_errors_logged_only_while_running_witness :
    (runloop [RunEvent.socketError "io"]).2 = none ∧
    (runloop [RunEvent.socketError "io"]).1
      = [RunEvent.socketError "io"].map runLogOf ∧
    (mainProgram false true true ⟨false, false, 0⟩ 1
        [RunEvent.socketError "io"] []).filter isStateSet = [] ∧
    (mainProgram false true true ⟨false, false, 0⟩ 1
        [RunEvent.socketError "io"] []).filter isClose = [] ∧
    (mainProgram false true true ⟨false, false, 0⟩ 1
        [RunEvent.socketError "io"] []).filter isExit = [] ∧
    (∀ evs (c : Commit), (runloop evs).2 = some c →
      (c = .graceful → RunEvent.osSignal ∈ evs) ∧
      (c = .fault → ∃ m, RunEvent.handlerDeath m ∈ evs)) :=
  socket_errors_logged_only_while_running ⟨false, false, 0⟩ 1
    [RunEvent.socketError "io"] []
    (fun e he => ⟨"io", by simpa using he⟩)

lemma runloop_filter_isStateSet {events : List RunEvent} {c : Commit}
    (h : (runloop events).2 = some c) :
    ((runloop events).1).filter isStateSet = [commitStateSet c] := by
  obtain ⟨pre, lastLog, h1, h2, -, hset, -⟩ := runloop_shape h
  rw [h1]
  have hpre : pre.filter isStateSet = [] :=
    List.filter_eq_nil_iff.mpr (fun a ha => by
      obtain ⟨m, rfl⟩ := h2 a ha; simp [isStateSet])
  have hcs : isStateSet (commitStateSet c) = true := by
    cases c <;> rfl
  simp [List.filter_append, hpre, hset, hcs]

/-- C5: stragglers arriving after a committed path are logged only: every
drain-loop action is a log line, and both the `ProcessState` transition
history and the final exit status of the run are exactly the one
transition and one exit fixed by the committed path, for any straggler
stream. -/
theorem stragglers_after_commit_logged_only
    (conf : Config) (numCPU : Nat) (events : List RunEvent)
    (d : List DrainArrival) (c : Commit) (h : (runloop events).2 = some c) :
    (∀ a ∈ (drainloop d).1, isDrainLog a = true) ∧
    (mainProgram false true true conf numCPU events d).filter isStateSet
      = [commitStateSet c] ∧
    (mainProgram false true true conf numCPU events d).filter isExit
      = [Action.exitCode (commitExitCode c)] := by
  refine ⟨fun a ha => mem_drainloop ha, ?_, ?_⟩
  · rw [mainProgram_commit h]
    simp [List.filter_append,
      startup_filter_nil conf numCPU isStateSet rfl rfl rfl (fun _ _ => rfl)
        (fun _ => rfl) rfl,
      runloop_filter_isStateSet h, afterCommit_filter_isStateSet]
  · rw [mainProgram_commit h]
    simp [List.filter_append,
      startup_filter_nil conf numCPU isExit rfl rfl rfl (fun _ _ => rfl)
        (fun _ => rfl) rfl,
      runloop_filter_nil events isExit (fun _ => rfl) rfl (fun _ => rfl)
        rfl rfl,
      afterCommit_filter_isExit]

/-- Witness for C5 at a concrete fault run with stragglers. -/
theorem stragglers_after_commit_logged_only_witness :
    (∀ a ∈ (drainloop [(3, DrainEv.socketErr "late")]).1,
      isDrainLog a = true) ∧
    (mainProgram false true true ⟨false, false, 0⟩ 1
        [RunEvent.handlerDeath "dead"]
        [(3, DrainEv.socketErr "late")]).filter isStateSet
      = [commitStateSet .fault] ∧
    (mainProgram false true true ⟨false, false, 0⟩ 1
        [RunEvent.handlerDeath "dead"]
        [(3, DrainEv.socketErr "late")]).filter isExit
      = [Action.exitCode (commitExitCode .fault)] :=
  stragglers_after_commit_logged_only ⟨false, false, 0⟩ 1
    [RunEvent.handlerDeath "dead"] [(3, DrainEv.socketErr "late")] .fault rfl

/-- C6: every committed run performs its teardown closes as one contiguous
block equal to the spec's order — the socket producer's shutdown signal
first, then each handler's private shutdown signal followed by its input
queue in ascending index order — with no close before the block, no
close after it, and no straggler-collection log line before it. -/
theorem draining_close_order
    (conf : Config) (numCPU : Nat) (events : List RunEvent)
    (d : List DrainArrival) (c : Commit) (h : (runloop events).2 = some c) :
    closeSequence numCPU = specCloseOrder numCPU ∧
    (mainProgram false true true conf numCPU events d).filter isClose
      = specCloseOrder numCPU ∧
    ∃ p r, mainProgram false true true conf numCPU events d
        = p ++ (closeSequence numCPU ++ r) ∧
      (∀ a ∈ p, isClose a = false ∧ isDrainLog a = false) ∧
      (∀ a ∈ r, isClose a = false) := by
  refine ⟨rfl, ?_, ?_⟩
  · rw [mainProgram_commit h]
    have : closeSequence numCPU = specCloseOrder numCPU := rfl
    simp [List.filter_append,
      startup_filter_nil conf numCPU isClose rfl rfl rfl (fun _ _ => rfl)
        (fun _ => rfl) rfl,
      runloop_filter_nil events isClose (fun _ => rfl) rfl (fun _ => rfl)
        rfl rfl,
      afterCommit_filter_isClose, this]
  · refine ⟨startupTrace conf numCPU ++ (runloop events).1
        ++ (if c = .graceful then [Action.sleepMs gracePeriodMs] else []),
      (drainloop d).1 ++ [Action.sleepMs drainTimeoutMs, Action.httpShutdown,
        Action.exitCode (if c = .fault then 1 else 0)], ?_, ?_, ?_⟩
    · rw [mainProgram_commit h]
      cases c <;> simp [afterCommit, List.append_assoc]
    · intro a ha
      simp only [List.append_assoc, List.mem_append] at ha
      rcases ha with ha | ha | ha
      · exact ⟨isClose_false_of_mem_startup ha,
          isDrainLog_false_of_mem_startup ha⟩
      · exact ⟨isClose_false_of_mem_runloop ha,
          isDrainLog_false_of_mem_runloop ha⟩
      · cases c <;> simp_all <;> subst ha <;> simp [isClose, isDrainLog]
    · intro a ha
      rcases List.mem_append.mp ha with ha | ha
      · have := mem_drainloop ha
        cases a <;> simp_all [isDrainLog, isClose]
      · simp only [List.mem_cons, List.not_mem_nil, or_false] at ha
        rcases ha with ha | ha | ha <;> simp [ha, isClose]

/-- Witness for C6 at a concrete fault run. -/
theorem draining_close_order_witness :
    closeSequence 2 = specCloseOrder 2 ∧
    (mainProgram false true true ⟨false, false, 0⟩ 2
        [RunEvent.handlerDeath "dead"] []).filter isClose
      = specCloseOrder 2 ∧
    ∃ p r, mainProgram false true true ⟨false, false, 0⟩ 2
        [RunEvent.handlerDeath "dead"] []
        = p ++ (closeSequence 2 ++ r) ∧
      (∀ a ∈ p, isClose a = false ∧ isDrainLog a = false) ∧
      (∀ a ∈ r, isClose a = false) :=
  draining_close_order ⟨false, false, 0⟩ 2 [RunEvent.handlerDeath "dead"]
    [] .fault rfl

lemma mkHandlers_getElem (numCPU qlen i : Nat) :
    (mkHandlers numCPU qlen)[i]?
      = if i < numCPU then
          some { Num := i, Input := .handlerInput i, InputCap := qlen,
                 Shutdown := .handlerShutdown i, Death := .death }
        else none := by
  rcases Nat.lt_or_ge i numCPU with h | h
  · simp [mkHandlers, List.getElem?_map, List.getElem?_range h, h]
  · have hr : (List.range numCPU)[i]? = none :=
      List.getElem?_eq_none (by simpa using h)
    simp [mkHandlers, List.getElem?_map, Nat.not_lt.mpr h, hr]

lemma count_startHandler_flat (n cap i : Nat) :
    ((List.range n).flatMap (fun j =>
        [Action.createHandler j cap, Action.startHandler j])).count
      (Action.startHandler i) = if i < n then 1 else 0 := by
  induction n with
  | zero => simp
  | succ n ih =>
      rw [List.range_succ]
      rcases Nat.lt_trichotomy i n with h | h | h
      · simp [List.count_append, ih, h, Nat.lt_succ_of_lt h,
          List.count_cons]
        omega
      · subst h
        simp [List.count_append, ih, List.count_cons]
      · have h1 : ¬i < n := by omega
        have h2 : ¬i < n + 1 := by omega
        have h3 : ¬(n = i) := by omega
        simp [List.count_append, ih, h1, h2, h3, List.count_cons]

lemma startHandler_not_mem_runloop (events : List RunEvent) (i : Nat) :
    Action.startHandler i ∉ (runloop events).1 := by
  intro h
  rcases mem_runloop h with ⟨m, h⟩ | h | ⟨m, h⟩ | h | h <;>
    exact absurd h (by simp)

lemma startHandler_not_mem_afterCommit (c : Commit) (n : Nat)
    (d : List DrainArrival) (i : Nat) :
    Action.startHandler i ∉ afterCommit c n d := by
  intro h
  simp only [afterCommit, List.mem_append, List.mem_cons, List.not_mem_nil,
    or_false] at h
  rcases h with ((h | h) | h) | h | h | h
  · cases c <;> simp_all
  · exact absurd (mem_closeSequence h) (by simp [isClose])
  · exact absurd (mem_drainloop h) (by simp [isDrainLog])
  all_goals simp_all

lemma count_startHandler_startup (conf : Config) (n i : Nat) :
    (startupTrace conf n).count (Action.startHandler i)
      = if i < n then 1 else 0 := by
  have hflat := count_startHandler_flat n conf.handlerQueueLength i
  rcases conf with ⟨rot, prod, q⟩
  cases rot <;> cases prod <;>
    simp_all [startupTrace, List.count_append, List.count_cons]

/-- C7: startup creates and starts exactly one handler per available
processing core: handler `i` carries ordinal `i`, its own input queue of
the configured bounded capacity, its own private shutdown channel
distinct from every other handler's (as is its input queue), and the
shared fault channel; over the whole run each handler is started exactly
once and never restarted. -/
theorem handler_pool_one_per_core
    (conf : Config) (numCPU : Nat) (events : List RunEvent)
    (d : List DrainArrival) (i : Nat) :
    (mkHandlers numCPU conf.handlerQueueLength).length = numCPU ∧
    ((mkHandlers numCPU conf.handlerQueueLength)[i]?
      = if i < numCPU then
          some { Num := i, Input := .handlerInput i,
                 InputCap := conf.handlerQueueLength,
                 Shutdown := .handlerShutdown i, Death := .death }
        else none) ∧
    (∀ (j k : Nat) (hj hk : Handler),
      (mkHandlers numCPU conf.handlerQueueLength)[j]? = some hj →
      (mkHandlers numCPU conf.handlerQueueLength)[k]? = some hk →
      j ≠ k → hj.Input ≠ hk.Input ∧ hj.Shutdown ≠ hk.Shutdown) ∧
    ((mkHandlers numCPU conf.handlerQueueLength).all
      (fun h => h.Death == Chan.death) = true) ∧
    ((mainProgram false true true conf numCPU events d).count
        (Action.startHandler i) = if i < numCPU then 1 else 0) := by
  refine ⟨by simp [mkHandlers], mkHandlers_getElem numCPU _ i, ?_, ?_, ?_⟩
  · intro j k hj hk h1 h2 hne
    rw [mkHandlers_getElem] at h1 h2
    by_cases hjlt : j < numCPU
    · by_cases hklt : k < numCPU
      · rw [if_pos hjlt] at h1
        rw [if_pos hklt] at h2
        obtain rfl := Option.some.injEq _ _ ▸ h1.symm
        cases h1; cases h2
        constructor <;> simp [hne]
      · rw [if_neg hklt] at h2; cases h2
    · rw [if_neg hjlt] at h1; cases h1
  · refine List.all_eq_true.mpr (fun h hmem => ?_)
    simp only [mkHandlers, List.mem_map, List.mem_range] at hmem
    obtain ⟨j, -, rfl⟩ := hmem
    rfl
  · have hcnt0run : ((runloop events).1).count (Action.startHandler i) = 0 :=
      List.count_eq_zero.mpr (startHandler_not_mem_runloop events i)
    cases hc : (runloop events).2 with
    | none =>
        rw [mainProgram_noCommit hc]
        simp [List.count_append, count_startHandler_startup, hcnt0run]
    | some c =>
        rw [mainProgram_commit hc]
        simp [List.count_append, count_startHandler_startup, hcnt0run,
          List.count_eq_zero.mpr (startHandler_not_mem_afterCommit c numCPU d i)]

/-- Witness for C7 at two cores, including a concrete instance of the
channel-distinctness consequence. -/
theorem handler_pool_one_per_core_witness :
    (mkHandlers 2 4).length = 2 ∧
    ((mkHandlers 2 4)[0]?
      = some { Num := 0, Input := .handlerInput 0, InputCap := 4,
               Shutdown := .handlerShutdown 0, Death := .death }) ∧
    Chan.handlerInput 0 ≠ Chan.handlerInput 1 ∧
    Chan.handlerShutdown 0 ≠ Chan.handlerShutdown 1 ∧
    ((mainProgram false true true ⟨false, false, 4⟩ 2 [RunEvent.osSignal]
        []).count (Action.startHandler 0) = 1) := by
  have h := handler_pool_one_per_core ⟨false, false, 4⟩ 2 [RunEvent.osSignal]
    [] 0
  have hd := h.2.2.1 0 1
    { Num := 0, Input := .handlerInput 0, InputCap := 4,
      Shutdown := .handlerShutdown 0, Death := .death }
    { Num := 1, Input := .handlerInput 1, InputCap := 4,
      Shutdown := .handlerShutdown 1, Death := .death }
    (by rw [mkHandlers_getElem]; decide) (by rw [mkHandlers_getElem]; decide)
    (by decide)
  refine ⟨h.1, ?_, hd.1, hd.2, ?_⟩
  · rw [h.2.1]
    decide
  · rw [h.2.2.2.2]
    decide

/-- C8: a failing listen/serve call reports its error exactly once onto
the shared fault channel — the very channel every handler reports on —
and the orchestrator treats the arrival as a component fault: it
performs the `SetUnavailable` transition, commits the fault path, and
the run ends with exit status 1. -/
theorem http_listen_error_escalates_like_handler_fault
    (e : String) (conf : Config) (numCPU qlen : Nat)
    (d : List DrainArrival) :
    httpServerGoroutine (some e) = [(Chan.death, e)] ∧
    httpServerGoroutine none = [] ∧
    ((mkHandlers numCPU qlen).all (fun h => h.Death == Chan.death) = true) ∧
    (runloop [RunEvent.handlerDeath e]).2 = some .fault ∧
    ((mainProgram false true true conf numCPU [RunEvent.handlerDeath e]
        d).filter isStateSet = [Action.setUnavailable]) ∧
    ((mainProgram false true true conf numCPU [RunEvent.handlerDeath e]
        d).filter isExit = [Action.exitCode 1]) := by
  have hc : (runloop [RunEvent.handlerDeath e]).2 = some .fault := rfl
  refine ⟨rfl, rfl, ?_, hc, ?_, ?_⟩
  · refine List.all_eq_true.mpr (fun h hmem => ?_)
    simp only [mkHandlers, List.mem_map, List.mem_range] at hmem
    obtain ⟨j, -, rfl⟩ := hmem
    rfl
  · rw [mainProgram_commit hc]
    simpa [List.filter_append,
      startup_filter_nil conf numCPU isStateSet rfl rfl rfl (fun _ _ => rfl)
        (fun _ => rfl) rfl,
      afterCommit_filter_isStateSet] using runloop_filter_isStateSet hc
  · rw [mainProgram_commit hc]
    simp [List.filter_append,
      startup_filter_nil conf numCPU isExit rfl rfl rfl (fun _ _ => rfl)
        (fun _ => rfl) rfl,
      runloop_filter_nil _ isExit (fun _ => rfl) rfl (fun _ => rfl) rfl rfl,
      afterCommit_filter_isExit, commitExitCode]

/-- C9: with the version flag set, the process prints build metadata and
exits 0 as its entire behaviour: no logfile is opened, no handler is
created or started, no metrics producer is launched and no HTTP server
is started, whatever the rest of the inputs are. -/
theorem version_flag_bypasses_startup
    (configOk logfileOk : Bool) (conf : Config) (numCPU : Nat)
    (events : List RunEvent) (d : List DrainArrival) (i cap : Nat) :
    mainProgram true configOk logfileOk conf numCPU events d
      = [Action.printVersion, Action.exitCode 0] ∧
    (mainProgram true configOk logfileOk conf numCPU events d).count
      Action.openLogfile = 0 ∧
    (mainProgram true configOk logfileOk conf numCPU events d).count
      (Action.createHandler i cap) = 0 ∧
    (mainProgram true configOk logfileOk conf numCPU events d).count
      (Action.startHandler i) = 0 ∧
    (mainProgram true configOk logfileOk conf numCPU events d).count
      Action.startHTTPServer = 0 ∧
    (mainProgram true configOk logfileOk conf numCPU events d).count
      Action.launchMetricsProducer = 0 ∧
    (mainProgram true configOk logfileOk conf numCPU events d).count
      Action.fatalConfig = 0 := by
  have h : mainProgram true configOk logfileOk conf numCPU events d
      = [Action.printVersion, Action.exitCode 0] := rfl
  refine ⟨h, ?_, ?_, ?_, ?_, ?_, ?_⟩ <;> rw [h] <;>
    simp [List.count_cons]

/-- C10: the drain loop arms a fresh 10 ms timer on every iteration: every
arrival whose gap since the previous iteration is under 10 ms is
consumed and logged and the loop continues, a gap of 10 ms or more ends
the loop at once, and the loop's total duration is the sum of consumed
gaps plus one final quiescent window — so arrivals every 5 ms keep it
running past any fixed bound. -/
theorem drainloop_fresh_timer_unbounded
    (d : List DrainArrival) (g : Nat) (ev : DrainEv)
    (rest : List DrainArrival) (B : Nat)
    (hall : ∀ p ∈ d, p.1 < drainTimeoutMs) (hg : drainTimeoutMs ≤ g) :
    drainloop d
      = (d.map (fun p => drainLogOf p.2), sumGaps d + drainTimeoutMs) ∧
    drainloop ((g, ev) :: rest) = ([], drainTimeoutMs) ∧
    (drainloop (List.replicate B (5, DrainEv.socketErr "e"))).2
      = 5 * B + drainTimeoutMs ∧
    B < (drainloop (List.replicate B (5, DrainEv.socketErr "e"))).2 := by
  have hrep : ∀ k, (drainloop (List.replicate k (5, DrainEv.socketErr "e"))).2
      = 5 * k + drainTimeoutMs := by
    intro k
    induction k with
    | zero => simp [drainloop]
    | succ k ih =>
        rw [List.replicate_succ]
        simp [drainloop, drainTimeoutMs, ih]
        ring
  refine ⟨?_, ?_, hrep B, ?_⟩
  · induction d with
    | nil => simp [drainloop, sumGaps]
    | cons p rest ih =>
        obtain ⟨gap, ev'⟩ := p
        have hgap : gap < drainTimeoutMs :=
          hall (gap, ev') (List.mem_cons_self _ _)
        have ih' := ih (fun q hq => hall q (List.mem_cons_of_mem _ hq))
        simp [drainloop, hgap, ih', sumGaps]
        omega
  · simp [drainloop, Nat.not_lt.mpr hg]
  · rw [hrep B]
    simp [drainTimeoutMs]
    omega

/-- Witness for C10 at a concrete straggler stream. -/
theorem drainloop_fresh_timer_unbounded_witness :
    drainloop [(5, DrainEv.handlerErr "x")]
      = ([(5, DrainEv.handlerErr "x")].map (fun p => drainLogOf p.2),
         sumGaps [(5, DrainEv.handlerErr "x")] + drainTimeoutMs) ∧
    drainloop ((12, DrainEv.socketErr "y") :: [(5, DrainEv.handlerErr "x")])
      = ([], drainTimeoutMs) ∧
    (drainloop (List.replicate 3 (5, DrainEv.socketErr "e"))).2
      = 5 * 3 + drainTimeoutMs ∧
    3 < (drainloop (List.replicate 3 (5, DrainEv.socketErr "e"))).2 :=
  drainloop_fresh_timer_unbounded [(5, DrainEv.handlerErr "x")] 12
    (DrainEv.socketErr "y") [(5, DrainEv.handlerErr "x")] 3
    (by intro p hp; simp only [List.mem_singleton] at hp; subst hp; decide)
    (by decide)

end Mistral
